import Mathlib

/-!
Verification of the rustup mirror synchronization engine of panamax
(src/rustup.rs), shallowly embedded in Lean.

Rust strings are modelled as their byte sequences (`List Nat`).  For the
ASCII data handled here (dates, channel names, URLs, relative paths) the
lexicographic order on the byte lists coincides with the order Rust `sort`
uses on `String`.  Filesystem and network effects are made explicit:
the history files on disk become a map from file name to contents, the
outcome of a download batch becomes an explicit parameter, and a function
that can panic returns an `Option`.
-/

namespace Panamax

/-- Rust strings, modelled as their byte sequences. -/
abbrev Str := List Nat

/-- The byte string of an ASCII string literal (codepoints equal bytes). -/
def str (s : String) : Str := s.toList.map Char.toNat

/-- Model of `str::is_char_boundary` from the Rust standard library:
`0` is always a boundary, the length of the string is a boundary, and an
interior index is a boundary when the byte there is not a UTF-8
continuation byte. -/
def isCharBoundary (s : Str) (i : Nat) : Bool :=
  if i = 0 then true
  else
    match s[i]? with
    | none => i == s.length
    | some b => decide (b < 0x80) || decide (0xC0 ≤ b)

/-- Model of the Rust slice expression `&s[i..]`, which panics (`none`)
unless `i` is a char boundary of `s`. -/
def sliceFrom (s : Str) (i : Nat) : Option Str :=
  if isCharBoundary s i then some (s.drop i) else none

/-- Model of `trim_start_matches('/')`: drop every leading `/` byte. -/
def trimStartSlashes : Str → Str
  | [] => []
  | b :: rest => if b = 0x2F then trimStartSlashes rest else b :: rest

/-- The `url`, `hash`, `xz_url`, `xz_hash` fields of one manifest target
(struct `TargetUrls` in src/rustup.rs). -/
structure TargetUrls where
  url : Str
  hash : Str
  xz_url : Str
  xz_hash : Str
deriving DecidableEq

/-- One target of a manifest package (struct `Target` in src/rustup.rs).
The flattened URL block is optional. -/
structure Target where
  available : Bool
  target_urls : Option TargetUrls
deriving DecidableEq

/-- One package of a manifest (struct `Pkg` in src/rustup.rs); the target
map is modelled as an association list. -/
structure Pkg where
  version : Str
  target : List (Str × Target)
deriving DecidableEq

/-- A parsed channel manifest (struct `Channel` in src/rustup.rs). -/
structure Channel where
  manifest_version : Str
  date : Str
  pkg : List (Str × Pkg)
deriving DecidableEq

/-- Map a panic-propagating function over a list: any `none` (panic while
evaluating the iterator pipeline) makes the whole traversal `none`. -/
def optionTraverse (f : α → Option β) : List α → Option (List β)
  | [] => some []
  | a :: l =>
    match f a, optionTraverse f l with
    | some b, some bs => some (b :: bs)
    | _, _ => none

/-- The `(relative path, hash)` pairs contributed by one target in
`rustup_download_list`: nothing when the URL block is absent, otherwise
the url/hash pair and the xz url/hash pair, each URL byte-sliced at
`source.length` (a panic, `none`, when that is not a char boundary) and
stripped of leading slashes. -/
def targetArtifacts (source : Str) (t : Target) : Option (List (Str × Str)) :=
  match t.target_urls with
  | none => some []
  | some urls =>
    match sliceFrom urls.url source.length, sliceFrom urls.xz_url source.length with
    | some p, some q =>
        some [(trimStartSlashes p, urls.hash), (trimStartSlashes q, urls.xz_hash)]
    | _, _ => none

/-- The artifacts contributed by one package: the concatenation over its
targets. -/
def pkgArtifacts (source : Str) (p : Pkg) : Option (List (Str × Str)) :=
  (optionTraverse (fun t => targetArtifacts source t.2) p.target).map List.flatten

/-- Model of `rustup_download_list` (src/rustup.rs): from a parsed channel
manifest, the release date together with the concatenation, over all
packages and targets, of their `(relative path, hash)` pairs.  File
reading and TOML parsing are abstracted: the function starts from the
parsed `Channel` value. -/
def rustup_download_list (source : Str) (channel : Channel) :
    Option (Str × List (Str × Str)) :=
  (optionTraverse (fun p => pkgArtifacts source p.2) channel.pkg).map
    (fun ls => (channel.date, ls.flatten))

/-- The URLs a target carries (both the plain and the xz one). -/
def targetUrlList (t : Target) : List Str :=
  match t.target_urls with
  | none => []
  | some urls => [urls.url, urls.xz_url]

/-- All URLs occurring in a channel manifest, in traversal order. -/
def channelUrls (c : Channel) : List Str :=
  c.pkg.flatMap (fun p => p.2.target.flatMap (fun t => targetUrlList t.2))

/-- A per-channel history file (struct `ChannelHistoryFile` in
src/rustup.rs); the `versions` hash map is modelled as an association
list from date to the list of relative paths fetched on that date. -/
structure ChannelHistoryFile where
  versions : List (Str × List Str)
deriving DecidableEq

/-- Model of `latest_dates_from_channel_history` (src/rustup.rs): collect
the date keys, sort ascending, reverse, truncate. -/
def latest_dates_from_channel_history (channel_history : ChannelHistoryFile)
    (versions : Nat) : List Str :=
  (((channel_history.versions.map Prod.fst).insertionSort (· ≤ ·)).reverse).take versions

/-- The error enumeration of src/rustup.rs (`SyncError`), with the error
payloads dropped. -/
inductive SyncError where
  | IoErr
  | Download
  | Parse
  | Serialize
  | PathErr
  | FailedDownloads (count : Nat)
deriving DecidableEq

/-- The on-disk store of history files: a map from file name to `none`
(file absent), `some none` (file present but not parseable TOML), or
`some (some h)` (file present, parsing to `h`).  TOML serialization is
abstracted: a written history file is stored as the value it would parse
back to. -/
def Disk := Str → Option (Option ChannelHistoryFile)

/-- The history file name `mirror-<channel>-history.toml`. -/
def channelHistoryPath (channel : Str) : Str :=
  str "mirror-" ++ channel ++ str "-history.toml"

/-- Model of `get_channel_history` (src/rustup.rs): an absent file yields
an empty history, an unparseable file a parse error. -/
def get_channel_history (disk : Disk) (channel : Str) :
    Except SyncError ChannelHistoryFile :=
  match disk (channelHistoryPath channel) with
  | none => .ok ⟨[]⟩
  | some none => .error .Parse
  | some (some h) => .ok h

/-- Model of `HashMap::insert` on the versions map: replace the value at
an existing key, or add the binding. -/
def insertAssoc (k : Str) (v : List Str) :
    List (Str × List Str) → List (Str × List Str)
  | [] => [(k, v)]
  | (k', v') :: rest =>
      if k' = k then (k, v) :: rest else (k', v') :: insertAssoc k v rest

/-- Model of `HashMap::get` on the versions map. -/
def lookupA (k : Str) : List (Str × List Str) → Option (List Str)
  | [] => none
  | (k', v) :: rest => if k' = k then some v else lookupA k rest

/-- Model of `add_to_channel_history` (src/rustup.rs): load the channel
history (empty when absent), insert the first components of `files` under
`date`, and write the whole structure back to the history file. -/
def add_to_channel_history (disk : Disk) (channel date : Str)
    (files : List (Str × Str)) : Except SyncError Disk :=
  match get_channel_history disk channel with
  | .error e => .error e
  | .ok ch =>
      let ch' : ChannelHistoryFile := ⟨insertAssoc date (files.map Prod.fst) ch.versions⟩
      .ok (fun p => if p = channelHistoryPath channel then some (some ch') else disk p)

/-- One filesystem entry under the mirror root: its path components
relative to the root, and whether it is a directory. -/
structure FSEntry where
  path : List Str
  isDir : Bool
deriving DecidableEq

/-- Model of `fs::read_dir`: the entries directly inside directory `d`. -/
def readDir (fs : List FSEntry) (d : List Str) : List FSEntry :=
  fs.filter (fun e => e.path.length == d.length + 1 && e.path.take d.length == d)

/-- Join path components with `/`, as `Path::to_str` renders the
root-relative path compared against the keep set. -/
def joinPath (p : List Str) : Str :=
  List.intercalate [0x2F] p

/-- The keep-set contribution of one channel in `clean_old_files`
(src/rustup.rs): nothing when the keep count is unset, otherwise the
paths recorded under the latest `k` dates of the channel history. -/
def keep_files_for (disk : Disk) (channel : Str) (keep : Option Nat)
    (acc : List Str) : Except SyncError (List Str) :=
  match keep with
  | none => .ok acc
  | some k =>
    match get_channel_history disk channel with
    | .error e => .error e
    | .ok ch =>
      let dates := latest_dates_from_channel_history ch k
      .ok (acc ++ dates.flatMap (fun d => (lookupA d ch.versions).getD []))

/-- The paths `clean_old_files` pushes into `files_to_delete`: inside each
directory entry of `dist/`, every entry whose root-relative path is not in
the keep set. -/
def filesToDelete (fs : List FSEntry) (files_to_keep : List Str) : List (List Str) :=
  ((readDir fs [str "dist"]).filter (fun e => e.isDir)).flatMap (fun d =>
    (readDir fs d.path).filterMap (fun e =>
      if files_to_keep.contains (joinPath e.path) then none
      else some e.path))

/-- Model of `clean_old_files` (src/rustup.rs): build the keep set from
the stable, beta and nightly histories, then walk `dist/`, and inside
each subdirectory of `dist/` delete every entry whose root-relative path
is not in the keep set.  `remove_file` fails on a directory (only a
diagnostic is printed), so directories survive the sweep. -/
def clean_old_files (disk : Disk) (fs : List FSEntry)
    (keep_stables keep_betas keep_nightlies : Option Nat) :
    Except SyncError (List FSEntry) :=
  match keep_files_for disk (str "stable") keep_stables [] with
  | .error e => .error e
  | .ok k1 =>
  match keep_files_for disk (str "beta") keep_betas k1 with
  | .error e => .error e
  | .ok k2 =>
  match keep_files_for disk (str "nightly") keep_nightlies k2 with
  | .error e => .error e
  | .ok files_to_keep =>
    if (fs.filter (fun e => e.path == [str "dist"] && e.isDir)).isEmpty then
      .error .IoErr
    else
      .ok (fs.filter (fun e => e.isDir || !((filesToDelete fs files_to_keep).contains e.path)))

/-- The retention configuration of the rustup section
(`keep_latest_stables`, `keep_latest_betas`, `keep_latest_nightlies` in
mirror.toml). -/
structure RustupSection where
  keep_latest_stables : Option Nat
  keep_latest_betas : Option Nat
  keep_latest_nightlies : Option Nat
deriving DecidableEq

/-- The outcome of the network interactions of one channel sync:
whether the channel manifest (and, for stable, the release file) could be
fetched, the parsed release date and download list, and the failure count
reported by the download batch. -/
structure ChannelOutcome where
  fetchOk : Bool
  date : Str
  files : List (Str × Str)
  errors : Nat

/-- The mutable state `sync` acts on: the history files, the entries of
the mirror tree, and the list of channels whose manifest has been moved
into its final published place. -/
structure World where
  disk : Disk
  fs : List FSEntry
  published : List Str

/-- Model of `sync_rustup_channel` (src/rustup.rs): fail if the channel
file fetch failed; fail with `FailedDownloads` if the batch reported a
positive failure count; otherwise record the history entry and publish
the manifest.  The artifact downloads themselves only matter through the
failure count. -/
def sync_rustup_channel (w : World) (channel : Str) (out : ChannelOutcome) :
    Except SyncError World :=
  if out.fetchOk = false then .error .Download
  else if out.errors = 0 then
    match add_to_channel_history w.disk channel out.date out.files with
    | .error e => .error e
    | .ok disk' =>
        .ok { w with disk := disk', published := w.published ++ [channel] }
  else .error (.FailedDownloads out.errors)

/-- What the coordinator did: which channel stages were attempted, whether
any channel stage failed, and whether the cleaning stage was reached. -/
structure SyncTrace where
  attemptedStable : Bool
  attemptedBeta : Bool
  attemptedNightly : Bool
  failures : Bool
  ranClean : Bool
deriving DecidableEq

/-- One channel stage of `sync` (src/rustup.rs): skipped when the keep
count is exactly `some 0`; otherwise run, with a failure only setting the
failures flag.  Returns the new world, the failures flag, and whether the
stage was attempted. -/
def syncChannelStage (w : World) (channel : Str) (out : ChannelOutcome)
    (keep : Option Nat) (failures : Bool) : World × Bool × Bool :=
  if keep ≠ some 0 then
    match sync_rustup_channel w channel out with
    | .ok w' => (w', failures, true)
    | .error _ => (w, true, true)
  else (w, failures, false)

/-- Model of `sync` (src/rustup.rs): the stable, beta and nightly stages
in order, then the cleaning stage, which is skipped when all three keep
counts are unset or when any channel stage failed.  The rustup-init stage
touches neither the history files nor the failures flag and is omitted. -/
def sync (rustup : RustupSection) (w : World)
    (stable beta nightly : ChannelOutcome) : World × SyncTrace :=
  let s1 := syncChannelStage w (str "stable") stable rustup.keep_latest_stables false
  let s2 := syncChannelStage s1.1 (str "beta") beta rustup.keep_latest_betas s1.2.1
  let s3 := syncChannelStage s2.1 (str "nightly") nightly rustup.keep_latest_nightlies s2.2.1
  if rustup.keep_latest_stables = none ∧ rustup.keep_latest_betas = none
      ∧ rustup.keep_latest_nightlies = none then
    (s3.1, ⟨s1.2.2, s2.2.2, s3.2.2, s3.2.1, false⟩)
  else if s3.2.1 then
    (s3.1, ⟨s1.2.2, s2.2.2, s3.2.2, s3.2.1, false⟩)
  else
    match clean_old_files s3.1.disk s3.1.fs rustup.keep_latest_stables
        rustup.keep_latest_betas rustup.keep_latest_nightlies with
    | .ok fs' => ({ s3.1 with fs := fs' }, ⟨s1.2.2, s2.2.2, s3.2.2, s3.2.1, true⟩)
    | .error _ => (s3.1, ⟨s1.2.2, s2.2.2, s3.2.2, s3.2.1, true⟩)

/-! ### Helper lemmas -/

theorem sliceFrom_isSome (s : Str) (i : Nat) (h : isCharBoundary s i = true) :
    sliceFrom s i = some (s.drop i) := by
  simp [sliceFrom, h]

theorem targetArtifacts_length (source : Str) (t : Target) (l : List (Str × Str))
    (h : targetArtifacts source t = some l) : l.length = (targetUrlList t).length := by
  obtain ⟨avail, tu⟩ := t
  cases tu with
  | none =>
      dsimp only [targetArtifacts] at h
      simp only [Option.some.injEq] at h
      subst h
      rfl
  | some urls =>
      dsimp only [targetArtifacts] at h
      dsimp only [targetUrlList]
      cases h1 : sliceFrom urls.url source.length with
      | none =>
          rw [h1] at h
          cases h2 : sliceFrom urls.xz_url source.length <;> rw [h2] at h <;> simp at h
      | some p =>
          rw [h1] at h
          cases h2 : sliceFrom urls.xz_url source.length with
          | none => rw [h2] at h; simp at h
          | some q =>
              rw [h2] at h
              simp only [Option.some.injEq] at h
              subst h
              rfl

theorem targetArtifacts_isSome (source : Str) (t : Target)
    (h : ∀ u ∈ targetUrlList t, isCharBoundary u source.length = true) :
    (targetArtifacts source t).isSome = true := by
  obtain ⟨avail, tu⟩ := t
  cases tu with
  | none => rfl
  | some urls =>
      have h1 := h urls.url (by simp [targetUrlList])
      have h2 := h urls.xz_url (by simp [targetUrlList])
      dsimp only [targetArtifacts]
      rw [sliceFrom_isSome _ _ h1, sliceFrom_isSome _ _ h2]
      rfl

theorem optionTraverse_isSome (f : α → Option β) (xs : List α)
    (h : ∀ a ∈ xs, (f a).isSome = true) : (optionTraverse f xs).isSome = true := by
  induction xs with
  | nil => rfl
  | cons a rest ih =>
      have ha := h a (by simp)
      have hrest := ih (fun x hx => h x (by simp [hx]))
      unfold optionTraverse
      cases hfa : f a with
      | none => rw [hfa] at ha; simp at ha
      | some b =>
          cases htr : optionTraverse f rest with
          | none => rw [htr] at hrest; simp at hrest
          | some bs => rfl

theorem optionTraverse_flatten_length {α β γ : Type _} (f : α → Option (List β))
    (g : α → List γ) (hfg : ∀ a l, f a = some l → l.length = (g a).length) :
    ∀ xs ls, optionTraverse f xs = some ls →
      ls.flatten.length = (xs.flatMap g).length := by
  intro xs
  induction xs with
  | nil =>
      intro ls h
      simp only [optionTraverse, Option.some.injEq] at h
      subst h
      rfl
  | cons a rest ih =>
      intro ls h
      unfold optionTraverse at h
      cases hfa : f a with
      | none => rw [hfa] at h; simp at h
      | some b =>
          cases htr : optionTraverse f rest with
          | none => rw [hfa, htr] at h; simp at h
          | some bs =>
              rw [hfa, htr] at h
              simp only [Option.some.injEq] at h
              subst h
              simp only [List.flatten_cons, List.flatMap_cons, List.length_append]
              rw [hfg a b hfa, ih bs htr]

theorem pkgArtifacts_length (source : Str) (p : Pkg) (l : List (Str × Str))
    (h : pkgArtifacts source p = some l) :
    l.length = (p.target.flatMap (fun t => targetUrlList t.2)).length := by
  unfold pkgArtifacts at h
  cases htr : optionTraverse (fun t => targetArtifacts source t.2) p.target with
  | none => rw [htr] at h; simp at h
  | some ls =>
      rw [htr] at h
      simp only [Option.map_some', Option.some.injEq] at h
      subst h
      exact optionTraverse_flatten_length _ (fun t => targetUrlList t.2)
        (fun a la ha => targetArtifacts_length source a.2 la ha) p.target ls htr

/-! ### Example values -/

/-- The example channel history of spec property P5. -/
def exampleHistory : ChannelHistoryFile :=
  ⟨[(str "2023-01-01", []), (str "2023-06-01", []), (str "2022-12-01", [])]⟩

/-- A target marked unavailable which nonetheless carries URL data. -/
def c3Target : Target := ⟨false, some ⟨str "a", str "h", str "b", str "i"⟩⟩

/-- A manifest whose single target is unavailable but carries URL data. -/
def c3Channel : Channel :=
  ⟨str "2", str "2024-01-01", [(str "rust", ⟨str "1.0", [(str "t", c3Target)]⟩)]⟩

/-- A package with one available target. -/
def c4Pkg : Pkg := ⟨str "1.0", [(str "x", ⟨true, some ⟨str "p", str "h", str "q", str "i"⟩⟩)]⟩

/-- A manifest in which the same URLs appear under two packages. -/
def c4Channel : Channel :=
  ⟨str "2", str "2024-01-01", [(str "rust", c4Pkg), (str "cargo", c4Pkg)]⟩

/-- A manifest whose target URL `"a"` is shorter than the source prefix
`"ab"`. -/
def c9Channel : Channel :=
  ⟨str "2", str "d",
   [(str "rust", ⟨str "1", [(str "t", ⟨true, some ⟨str "a", str "h", str "a", str "i"⟩⟩)]⟩)]⟩

/-! ### Claim theorems -/

/-- C3 (amended): `rustup_download_list` never consults the `available`
flag of a target; a target contributes zero artifacts exactly when its
URL block is absent, so the flag value has no effect on the produced
list, and a URL-less target contributes nothing. -/
theorem available_not_consulted (source : Str) (a b : Bool) (urls : Option TargetUrls)
    (mv d v nm tn : Str) :
    targetArtifacts source ⟨a, urls⟩ = targetArtifacts source ⟨b, urls⟩
    ∧ targetArtifacts source ⟨a, none⟩ = some []
    ∧ rustup_download_list source ⟨mv, d, [(nm, ⟨v, [(tn, ⟨a, none⟩)]⟩)]⟩ = some (d, []) :=
  ⟨rfl, rfl, rfl⟩

/-- C3 (counterexample): in the manifest `c3Channel` the only target has
`available = false` yet carries URL data, and `rustup_download_list`
still emits its two artifacts — the claim that such a target contributes
zero artifacts regardless of the URL fields is false on the code. -/
theorem available_false_counterexample :
    c3Target.available = false
    ∧ rustup_download_list [] c3Channel
      = some (str "2024-01-01", [(str "a", str "h"), (str "b", str "i")]) := by
  decide

/-- C4 (amended): the list produced by `rustup_download_list` is not
deduplicated; it has exactly one entry per URL occurrence in the
manifest (two per URL-bearing target), so a URL shared by several
packages or targets yields several entries. -/
theorem download_list_length (source : Str) (c : Channel) (d : Str)
    (l : List (Str × Str)) (h : rustup_download_list source c = some (d, l)) :
    l.length = (channelUrls c).length := by
  unfold rustup_download_list at h
  cases htr : optionTraverse (fun p => pkgArtifacts source p.2) c.pkg with
  | none => rw [htr] at h; simp at h
  | some ls =>
      rw [htr] at h
      simp only [Option.map_some', Option.some.injEq, Prod.mk.injEq] at h
      rw [← h.2]
      unfold channelUrls
      exact optionTraverse_flatten_length _
        (fun p => p.2.target.flatMap (fun t => targetUrlList t.2))
        (fun a la ha => pkgArtifacts_length source a.2 la ha) c.pkg ls htr

/-- C4 (witness): the amended theorem evaluated on `c4Channel`. -/
theorem download_list_length_witness :
    ([(str "p", str "h"), (str "q", str "i"), (str "p", str "h"),
      (str "q", str "i")] : List (Str × Str)).length = (channelUrls c4Channel).length :=
  download_list_length [] c4Channel (str "2024-01-01")
    [(str "p", str "h"), (str "q", str "i"), (str "p", str "h"), (str "q", str "i")]
    (by decide)

/-- C4 (counterexample): for `c4Channel`, whose two packages carry the
same URLs, `rustup_download_list` returns the relative path `"p"` twice —
the produced list is not deduplicated. -/
theorem download_list_dup_counterexample :
    rustup_download_list [] c4Channel
      = some (str "2024-01-01",
          [(str "p", str "h"), (str "q", str "i"), (str "p", str "h"), (str "q", str "i")])
    ∧ ((rustup_download_list [] c4Channel).map
        (fun r => (r.2.map Prod.fst).count (str "p"))) = some 2 := by
  decide

/-- C5: `latest_dates_from_channel_history` returns the date keys in
descending lexicographic order, truncated to at most `n` entries; with
fewer than `n` dates it returns all of them, and on the P5 example with
`n = 2` it returns the two latest dates in order. -/
theorem latest_dates_spec (ch : ChannelHistoryFile) (n : Nat) :
    (latest_dates_from_channel_history ch n).Pairwise (fun a b => b ≤ a)
    ∧ (latest_dates_from_channel_history ch n).length = min n ch.versions.length
    ∧ (ch.versions.length ≤ n →
        (latest_dates_from_channel_history ch n).Perm (ch.versions.map Prod.fst))
    ∧ latest_dates_from_channel_history exampleHistory 2
      = [str "2023-06-01", str "2023-01-01"] := by
  refine ⟨?_, ?_, ?_, by decide⟩
  · apply List.Pairwise.sublist (List.take_sublist _ _)
    rw [List.pairwise_reverse]
    exact List.sorted_insertionSort _ _
  · unfold latest_dates_from_channel_history
    rw [List.length_take, List.length_reverse,
      (List.perm_insertionSort (· ≤ ·) (ch.versions.map Prod.fst)).length_eq,
      List.length_map]
  · intro hle
    unfold latest_dates_from_channel_history
    rw [List.take_of_length_le]
    · exact ((List.insertionSort (· ≤ ·) (ch.versions.map Prod.fst)).reverse_perm).trans
        (List.perm_insertionSort _ _)
    · rw [List.length_reverse,
        (List.perm_insertionSort (· ≤ ·) (ch.versions.map Prod.fst)).length_eq,
        List.length_map]
      exact hle

/-- C5 (witness): the order/truncation theorem evaluated on the example
history with a bound larger than the number of dates. -/
theorem latest_dates_spec_witness :
    (latest_dates_from_channel_history exampleHistory 5).Perm
      (exampleHistory.versions.map Prod.fst) :=
  (latest_dates_spec exampleHistory 5).2.2.1 (by decide)

/-- C8: when the history file of a channel is absent from disk,
`get_channel_history` succeeds with an empty history. -/
theorem get_channel_history_missing (disk : Disk) (channel : Str)
    (h : disk (channelHistoryPath channel) = none) :
    get_channel_history disk channel = .ok ⟨[]⟩ := by
  unfold get_channel_history
  rw [h]

/-- C8 (witness): the missing-file theorem evaluated on an empty disk. -/
theorem get_channel_history_missing_witness :
    get_channel_history (fun _ => none) (str "stable") = .ok ⟨[]⟩ :=
  get_channel_history_missing (fun _ => none) (str "stable") rfl

/-- C9: the byte slicing `url[source.len()..]` in `rustup_download_list`
is total exactly under the precondition that every manifest URL has a
char boundary at offset `source.len()` (which requires the URL to be at
least that long); under the precondition the function returns a value,
and on the manifest `c9Channel`, whose URL is shorter than the source
prefix, it panics (`none`) instead of returning an error value. -/
theorem download_list_slicing (source : Str) (c : Channel)
    (h : ∀ u ∈ channelUrls c, isCharBoundary u source.length = true) :
    (rustup_download_list source c).isSome = true
    ∧ rustup_download_list (str "ab") c9Channel = none := by
  constructor
  · unfold rustup_download_list
    rw [Option.isSome_map']
    apply optionTraverse_isSome
    intro p hp
    unfold pkgArtifacts
    rw [Option.isSome_map']
    apply optionTraverse_isSome
    intro t ht
    apply targetArtifacts_isSome
    intro u hu
    apply h
    unfold channelUrls
    rw [List.mem_flatMap]
    exact ⟨p, hp, by rw [List.mem_flatMap]; exact ⟨t, ht, hu⟩⟩
  · decide

/-- C9 (witness): the totality direction evaluated on `c3Channel` with an
empty source prefix, together with the concrete panicking manifest. -/
theorem download_list_slicing_witness :
    (rustup_download_list [] c3Channel).isSome = true
    ∧ rustup_download_list (str "ab") c9Channel = none :=
  download_list_slicing [] c3Channel (by decide)

theorem lookupA_insertAssoc_self (k : Str) (v : List Str) (l : List (Str × List Str)) :
    lookupA k (insertAssoc k v l) = some v := by
  induction l with
  | nil => simp [insertAssoc, lookupA]
  | cons hd rest ih =>
      obtain ⟨k', v'⟩ := hd
      by_cases hk : k' = k
      · simp [insertAssoc, hk, lookupA]
      · simp [insertAssoc, hk, lookupA, ih]

theorem mem_keys_insertAssoc (x k : Str) (v : List Str) (l : List (Str × List Str))
    (h : x ∈ (insertAssoc k v l).map Prod.fst) : x = k ∨ x ∈ l.map Prod.fst := by
  induction l with
  | nil =>
      simp [insertAssoc] at h
      exact Or.inl h
  | cons hd rest ih =>
      obtain ⟨k', v'⟩ := hd
      by_cases hk : k' = k
      · subst hk
        simp only [insertAssoc, if_pos rfl, eq_self_iff_true, if_true, List.map_cons,
          List.mem_cons] at h ⊢
        exact h.imp id Or.inr
      · simp only [insertAssoc, if_neg hk, List.map_cons, List.mem_cons] at h ⊢
        rcases h with h | h
        · exact Or.inr (Or.inl h)
        · exact (ih h).imp id Or.inr

theorem nodup_keys_insertAssoc (k : Str) (v : List Str) (l : List (Str × List Str))
    (h : (l.map Prod.fst).Nodup) : ((insertAssoc k v l).map Prod.fst).Nodup := by
  induction l with
  | nil => simp [insertAssoc]
  | cons hd rest ih =>
      obtain ⟨k', v'⟩ := hd
      simp only [List.map_cons, List.nodup_cons] at h
      obtain ⟨hnotin, hnd⟩ := h
      by_cases hk : k' = k
      · subst hk
        simp only [insertAssoc, eq_self_iff_true, if_true, List.map_cons, List.nodup_cons]
        exact ⟨hnotin, hnd⟩
      · simp only [insertAssoc, if_neg hk, List.map_cons, List.nodup_cons]
        refine ⟨fun hmem => ?_, ih hnd⟩
        rcases mem_keys_insertAssoc _ _ _ _ hmem with h1 | h1
        · exact hk h1
        · exact hnotin h1

theorem count_keys_insertAssoc (k : Str) (v : List Str) (l : List (Str × List Str))
    (h : (l.map Prod.fst).Nodup) : ((insertAssoc k v l).map Prod.fst).count k = 1 := by
  induction l with
  | nil => simp [insertAssoc]
  | cons hd rest ih =>
      obtain ⟨k', v'⟩ := hd
      simp only [List.map_cons, List.nodup_cons] at h
      obtain ⟨hnotin, hnd⟩ := h
      by_cases hk : k' = k
      · subst hk
        simp only [insertAssoc, eq_self_iff_true, if_true, List.map_cons]
        rw [List.count_cons_self, List.count_eq_zero.mpr hnotin]
      · simp only [insertAssoc, if_neg hk, List.map_cons]
        rw [List.count_cons_of_ne (fun e => hk e.symm), ih hnd]

/-- C7: `add_to_channel_history` inserts or overwrites the entry for the
given date with exactly the first components of `files` and persists the
updated structure; recording the same date twice leaves exactly one entry
for that date, holding the last-written path list. -/
theorem add_to_channel_history_spec (disk : Disk) (channel date : Str)
    (files files2 : List (Str × Str)) (ch v1 v2 : ChannelHistoryFile)
    (disk1 disk2 : Disk)
    (hread : get_channel_history disk channel = .ok ch)
    (hnodup : (ch.versions.map Prod.fst).Nodup)
    (h1 : add_to_channel_history disk channel date files = .ok disk1)
    (hv1 : disk1 (channelHistoryPath channel) = some (some v1))
    (h2 : add_to_channel_history disk1 channel date files2 = .ok disk2)
    (hv2 : disk2 (channelHistoryPath channel) = some (some v2)) :
    lookupA date v1.versions = some (files.map Prod.fst)
    ∧ lookupA date v2.versions = some (files2.map Prod.fst)
    ∧ (v2.versions.map Prod.fst).count date = 1 := by
  unfold add_to_channel_history at h1
  rw [hread] at h1
  simp only [Except.ok.injEq] at h1
  have hd1 : disk1 (channelHistoryPath channel)
      = some (some ⟨insertAssoc date (files.map Prod.fst) ch.versions⟩) := by
    rw [← h1]
    simp
  have hv1e : v1 = ⟨insertAssoc date (files.map Prod.fst) ch.versions⟩ := by
    have hx := hd1.symm.trans hv1
    simp only [Option.some.injEq] at hx
    exact hx.symm
  have hg1 : get_channel_history disk1 channel = .ok v1 := by
    unfold get_channel_history
    rw [hd1, hv1e]
  unfold add_to_channel_history at h2
  rw [hg1] at h2
  simp only [Except.ok.injEq] at h2
  have hd2 : disk2 (channelHistoryPath channel)
      = some (some ⟨insertAssoc date (files2.map Prod.fst) v1.versions⟩) := by
    rw [← h2]
    simp
  have hv2e : v2 = ⟨insertAssoc date (files2.map Prod.fst) v1.versions⟩ := by
    have hx := hd2.symm.trans hv2
    simp only [Option.some.injEq] at hx
    exact hx.symm
  refine ⟨?_, ?_, ?_⟩
  · rw [hv1e]
    exact lookupA_insertAssoc_self _ _ _
  · rw [hv2e]
    exact lookupA_insertAssoc_self _ _ _
  · rw [hv2e]
    apply count_keys_insertAssoc
    rw [hv1e]
    exact nodup_keys_insertAssoc _ _ _ hnodup

theorem mem_readDir (fs : List FSEntry) (d : List Str) (e : FSEntry)
    (h : e ∈ readDir fs d) :
    e ∈ fs ∧ e.path.length = d.length + 1 ∧ e.path.take d.length = d := by
  unfold readDir at h
  rw [List.mem_filter] at h
  obtain ⟨hm, hb⟩ := h
  simp only [Bool.and_eq_true, beq_iff_eq] at hb
  exact ⟨hm, hb.1, hb.2⟩

theorem filesToDelete_shape (fs : List FSEntry) (keep : List Str) (q : List Str)
    (hq : q ∈ filesToDelete fs keep) : q.length = 3 ∧ q.take 1 = [str "dist"] := by
  unfold filesToDelete at hq
  rw [List.mem_flatMap] at hq
  obtain ⟨d, hd, hq⟩ := hq
  rw [List.mem_filter] at hd
  obtain ⟨hd1, hdDir⟩ := hd
  obtain ⟨hdfs, hdlen, hdtake⟩ := mem_readDir fs [str "dist"] d hd1
  rw [List.mem_filterMap] at hq
  obtain ⟨e, he, hef⟩ := hq
  by_cases hkeep : keep.contains (joinPath e.path) = true
  · rw [if_pos hkeep] at hef
    exact absurd hef (by simp)
  · rw [if_neg hkeep] at hef
    simp only [Option.some.injEq] at hef
    subst hef
    obtain ⟨hefs, helen, hetake⟩ := mem_readDir fs d.path e he
    have hl2 : d.path.length = 2 := by rw [hdlen]; rfl
    constructor
    · rw [helen, hl2]
    · have h3 : e.path.take 2 = d.path := by rw [← hl2]; exact hetake
      have h4 : d.path.take 1 = [str "dist"] := hdtake
      rw [← h3, List.take_take] at h4
      simpa using h4

/-- C10: the retention sweep of `clean_old_files` can only remove regular
files whose root-relative path has exactly three components and starts
with `dist` (that is, files at `dist/<subdirectory>/<file>`); every other
entry of the mirror tree — files directly inside `dist/`, everything
under `rustup/`, the per-channel history files at the root, and every
directory — survives the sweep. -/
theorem clean_old_files_frame (disk : Disk) (fs : List FSEntry)
    (ks kb kn : Option Nat) (fs' : List FSEntry)
    (h : clean_old_files disk fs ks kb kn = .ok fs')
    (e : FSEntry) (he : e ∈ fs)
    (hshape : e.path.length ≠ 3 ∨ e.path.take 1 ≠ [str "dist"] ∨ e.isDir = true) :
    e ∈ fs' := by
  unfold clean_old_files at h
  cases hk1 : keep_files_for disk (str "stable") ks [] with
  | error e1 => rw [hk1] at h; exact absurd h (by simp)
  | ok k1 =>
  rw [hk1] at h
  dsimp only at h
  cases hk2 : keep_files_for disk (str "beta") kb k1 with
  | error e2 => rw [hk2] at h; exact absurd h (by simp)
  | ok k2 =>
  rw [hk2] at h
  dsimp only at h
  cases hk3 : keep_files_for disk (str "nightly") kn k2 with
  | error e3 => rw [hk3] at h; exact absurd h (by simp)
  | ok k3 =>
  rw [hk3] at h
  dsimp only at h
  by_cases hemp : (fs.filter (fun e => e.path == [str "dist"] && e.isDir)).isEmpty = true
  · rw [if_pos hemp] at h
    exact absurd h (by simp)
  · rw [if_neg hemp] at h
    simp only [Except.ok.injEq] at h
    subst h
    rw [List.mem_filter]
    refine ⟨he, ?_⟩
    by_cases hdir : e.isDir = true
    · simp [hdir]
    · have hnot : e.path ∉ filesToDelete fs k3 := by
        intro hmem
        obtain ⟨hlen, htake⟩ := filesToDelete_shape fs k3 e.path hmem
        rcases hshape with hs | hs | hs
        · exact hs hlen
        · exact hs htake
        · exact hdir hs
      cases hcon : (filesToDelete fs k3).contains e.path with
      | true => exact absurd (List.mem_of_elem_eq_true hcon) hnot
      | false => simp [hdir, hcon]

/-- A small mirror tree: the dist directory, one dated subdirectory with
one artifact file, a channel manifest directly inside dist, the rustup
directory, and a history file at the root. -/
def c10Fs : List FSEntry :=
  [⟨[str "dist"], true⟩,
   ⟨[str "dist", str "2024-01-01"], true⟩,
   ⟨[str "dist", str "2024-01-01", str "rust.tar.xz"], false⟩,
   ⟨[str "dist", str "channel-rust-stable.toml"], false⟩,
   ⟨[str "rustup"], true⟩,
   ⟨[str "mirror-stable-history.toml"], false⟩]

/-- The tree left by sweeping `c10Fs` with empty histories: only the
artifact file at depth two under dist is removed. -/
def c10Result : List FSEntry :=
  [⟨[str "dist"], true⟩,
   ⟨[str "dist", str "2024-01-01"], true⟩,
   ⟨[str "dist", str "channel-rust-stable.toml"], false⟩,
   ⟨[str "rustup"], true⟩,
   ⟨[str "mirror-stable-history.toml"], false⟩]

/-- C10 (witness): the frame theorem evaluated on `c10Fs` — the channel
manifest directly inside `dist/` survives the sweep. -/
theorem clean_old_files_frame_witness :
    (⟨[str "dist", str "channel-rust-stable.toml"], false⟩ : FSEntry) ∈ c10Result :=
  clean_old_files_frame (fun _ => none) c10Fs (some 1) (some 1) (some 1) c10Result rfl
    ⟨[str "dist", str "channel-rust-stable.toml"], false⟩ (by decide) (by decide)

theorem sync_rustup_channel_failed (w : World) (c : Str) (out : ChannelOutcome)
    (hf : out.fetchOk = true) (he : out.errors ≠ 0) :
    sync_rustup_channel w c out = .error (.FailedDownloads out.errors) := by
  unfold sync_rustup_channel
  rw [hf]
  simp [he]

theorem sync_rustup_channel_ok (w : World) (c : Str) (out : ChannelOutcome) (w' : World)
    (h : sync_rustup_channel w c out = .ok w') :
    w'.fs = w.fs ∧ w'.published = w.published ++ [c]
    ∧ ∀ p, p ≠ channelHistoryPath c → w'.disk p = w.disk p := by
  unfold sync_rustup_channel at h
  by_cases hf : out.fetchOk = false
  · rw [if_pos hf] at h
    exact absurd h (by simp)
  · rw [if_neg hf] at h
    by_cases he : out.errors = 0
    · rw [if_pos he] at h
      cases ha : add_to_channel_history w.disk c out.date out.files with
      | error er => rw [ha] at h; exact absurd h (by simp)
      | ok disk1 =>
          rw [ha] at h
          dsimp only at h
          simp only [Except.ok.injEq] at h
          subst h
          refine ⟨rfl, rfl, fun p hp => ?_⟩
          unfold add_to_channel_history at ha
          cases hg : get_channel_history w.disk c with
          | error er => rw [hg] at ha; exact absurd ha (by simp)
          | ok ch =>
              rw [hg] at ha
              dsimp only at ha
              simp only [Except.ok.injEq] at ha
              rw [← ha]
              simp [hp]
    · rw [if_neg he] at h
      exact absurd h (by simp)

theorem syncChannelStage_attempted (w : World) (c : Str) (out : ChannelOutcome)
    (keep : Option Nat) (f : Bool) :
    (syncChannelStage w c out keep f).2.2 = decide (keep ≠ some 0) := by
  by_cases hk : keep = some 0
  · simp [syncChannelStage, hk]
  · cases hr : sync_rustup_channel w c out <;> simp [syncChannelStage, hk, hr]

theorem syncChannelStage_failures_true (w : World) (c : Str) (out : ChannelOutcome)
    (keep : Option Nat) : (syncChannelStage w c out keep true).2.1 = true := by
  by_cases hk : keep = some 0
  · simp [syncChannelStage, hk]
  · cases hr : sync_rustup_channel w c out <;> simp [syncChannelStage, hk, hr]

theorem syncChannelStage_failed (w : World) (c : Str) (out : ChannelOutcome)
    (keep : Option Nat) (f : Bool) (hk : keep ≠ some 0)
    (hf : out.fetchOk = true) (he : out.errors ≠ 0) :
    syncChannelStage w c out keep f = (w, true, true) := by
  unfold syncChannelStage
  rw [if_pos hk, sync_rustup_channel_failed w c out hf he]

theorem syncChannelStage_disk_frame (w : World) (c : Str) (out : ChannelOutcome)
    (keep : Option Nat) (f : Bool) (p : Str) (hp : p ≠ channelHistoryPath c) :
    (syncChannelStage w c out keep f).1.disk p = w.disk p := by
  unfold syncChannelStage
  by_cases hk : keep = some 0
  · rw [if_neg (by simp [hk])]
  · rw [if_pos hk]
    cases hr : sync_rustup_channel w c out with
    | ok w' =>
        dsimp only
        exact (sync_rustup_channel_ok w c out w' hr).2.2 p hp
    | error er => rfl

theorem syncChannelStage_published_count (w : World) (c : Str) (out : ChannelOutcome)
    (keep : Option Nat) (f : Bool) (x : Str) (hx : x ≠ c) :
    ((syncChannelStage w c out keep f).1.published).count x = w.published.count x := by
  unfold syncChannelStage
  by_cases hk : keep = some 0
  · rw [if_neg (by simp [hk])]
  · rw [if_pos hk]
    cases hr : sync_rustup_channel w c out with
    | ok w' =>
        dsimp only
        rw [(sync_rustup_channel_ok w c out w' hr).2.1]
        simp [List.count_append, hx]
    | error er => rfl

/-- C6: each channel stage of `sync` is skipped (not attempted) exactly
when its configured keep count is `some 0`; in particular an unset keep
count (`none`) does not skip the stage. -/
theorem channel_skip_iff (rustup : RustupSection) (w : World)
    (stable beta nightly : ChannelOutcome) :
    (sync rustup w stable beta nightly).2.attemptedStable
      = decide (rustup.keep_latest_stables ≠ some 0)
    ∧ (sync rustup w stable beta nightly).2.attemptedBeta
      = decide (rustup.keep_latest_betas ≠ some 0)
    ∧ (sync rustup w stable beta nightly).2.attemptedNightly
      = decide (rustup.keep_latest_nightlies ≠ some 0) := by
  refine ⟨?_, ?_, ?_⟩ <;>
    (simp only [sync]
     split
     · exact syncChannelStage_attempted _ _ _ _ _
     · split
       · exact syncChannelStage_attempted _ _ _ _ _
       · split <;> exact syncChannelStage_attempted _ _ _ _ _)

/-- C1 (amended): the cleaning stage of `sync` runs exactly when no
channel stage recorded a failure and not all three keep counts are unset;
a single configured keep count suffices, the other two may be `none`. -/
theorem retention_gating (rustup : RustupSection) (w : World)
    (stable beta nightly : ChannelOutcome) :
    (sync rustup w stable beta nightly).2.ranClean
      = (decide ¬(rustup.keep_latest_stables = none ∧ rustup.keep_latest_betas = none
            ∧ rustup.keep_latest_nightlies = none)
         && !(sync rustup w stable beta nightly).2.failures) := by
  simp only [sync]
  split
  · rename_i hAll
    simp [hAll]
  · rename_i hAll
    split
    · rename_i hf
      simp [hf]
    · rename_i hf
      simp only [Bool.not_eq_true] at hf
      split <;> simp [hf, hAll]

/-- The retention configuration used by the C1 counterexample: only the
stable keep count is configured. -/
def c1Section : RustupSection := ⟨some 1, none, none⟩

/-- A fully successful channel outcome with an empty download list. -/
def okOutcome : ChannelOutcome := ⟨true, str "2024-01-01", [], 0⟩

/-- A mirror world holding one beta artifact under `dist/`. -/
def c1World : World :=
  ⟨fun _ => none,
   [⟨[str "dist"], true⟩,
    ⟨[str "dist", str "2024-01-01"], true⟩,
    ⟨[str "dist", str "2024-01-01", str "beta.tar.xz"], false⟩],
   []⟩

/-- C1 (counterexample): with only the stable keep count configured
(beta and nightly unset) and no failures, `sync` still runs the cleaning
stage and deletes a file — the claim that retention runs only when all
three keep counts are configured is false on the code. -/
theorem retention_gating_counterexample :
    c1Section.keep_latest_betas = none
    ∧ c1Section.keep_latest_nightlies = none
    ∧ (sync c1Section c1World okOutcome okOutcome okOutcome).2.failures = false
    ∧ (sync c1Section c1World okOutcome okOutcome okOutcome).2.ranClean = true
    ∧ (⟨[str "dist", str "2024-01-01", str "beta.tar.xz"], false⟩ : FSEntry)
        ∈ c1World.fs
    ∧ (⟨[str "dist", str "2024-01-01", str "beta.tar.xz"], false⟩ : FSEntry)
        ∉ (sync c1Section c1World okOutcome okOutcome okOutcome).1.fs := by
  decide

/-- C2: for every channel (stable, beta, nightly), when the download
batch of that channel, if attempted, reports a positive failure count,
`sync_rustup_channel` returns the `FailedDownloads` error before
touching the ledger, so across the whole run the history file of that
channel is unchanged, the channel is not newly published, and the
cleaning stage is skipped. -/
theorem failed_batch_gating (rustup : RustupSection) (w : World)
    (stable beta nightly : ChannelOutcome) :
    (∀ c out, out.fetchOk = true → out.errors ≠ 0 →
        sync_rustup_channel w c out = .error (.FailedDownloads out.errors))
    ∧ (rustup.keep_latest_stables ≠ some 0 → stable.fetchOk = true →
        stable.errors ≠ 0 →
        (sync rustup w stable beta nightly).1.disk (channelHistoryPath (str "stable"))
            = w.disk (channelHistoryPath (str "stable"))
        ∧ ((sync rustup w stable beta nightly).1.published).count (str "stable")
            = w.published.count (str "stable")
        ∧ (sync rustup w stable beta nightly).2.ranClean = false)
    ∧ (rustup.keep_latest_betas ≠ some 0 → beta.fetchOk = true →
        beta.errors ≠ 0 →
        (sync rustup w stable beta nightly).1.disk (channelHistoryPath (str "beta"))
            = w.disk (channelHistoryPath (str "beta"))
        ∧ ((sync rustup w stable beta nightly).1.published).count (str "beta")
            = w.published.count (str "beta")
        ∧ (sync rustup w stable beta nightly).2.ranClean = false)
    ∧ (rustup.keep_latest_nightlies ≠ some 0 → nightly.fetchOk = true →
        nightly.errors ≠ 0 →
        (sync rustup w stable beta nightly).1.disk (channelHistoryPath (str "nightly"))
            = w.disk (channelHistoryPath (str "nightly"))
        ∧ ((sync rustup w stable beta nightly).1.published).count (str "nightly")
            = w.published.count (str "nightly")
        ∧ (sync rustup w stable beta nightly).2.ranClean = false) := by
  refine ⟨fun c out hf he => sync_rustup_channel_failed w c out hf he, ?_, ?_, ?_⟩
  · intro hk hf he
    have hs1 : syncChannelStage w (str "stable") stable rustup.keep_latest_stables false
        = (w, true, true) := syncChannelStage_failed _ _ _ _ _ hk hf he
    refine ⟨?_, ?_, ?_⟩
    · simp only [sync, hs1, syncChannelStage_failures_true]
      by_cases hN : (rustup.keep_latest_stables = none ∧ rustup.keep_latest_betas = none
          ∧ rustup.keep_latest_nightlies = none) <;>
        [skip; skip] <;> simp [hN] <;>
        exact (syncChannelStage_disk_frame _ _ _ _ _ _ (by decide)).trans
          (syncChannelStage_disk_frame _ _ _ _ _ _ (by decide))
    · simp only [sync, hs1, syncChannelStage_failures_true]
      by_cases hN : (rustup.keep_latest_stables = none ∧ rustup.keep_latest_betas = none
          ∧ rustup.keep_latest_nightlies = none) <;>
        [skip; skip] <;> simp [hN] <;>
        exact (syncChannelStage_published_count _ _ _ _ _ _ (by decide)).trans
          (syncChannelStage_published_count _ _ _ _ _ _ (by decide))
    · simp only [sync, hs1, syncChannelStage_failures_true]
      by_cases hN : (rustup.keep_latest_stables = none ∧ rustup.keep_latest_betas = none
          ∧ rustup.keep_latest_nightlies = none) <;> simp [hN]
  · intro hk hf he
    have hs2 : syncChannelStage
        (syncChannelStage w (str "stable") stable rustup.keep_latest_stables false).1
        (str "beta") beta rustup.keep_latest_betas
        (syncChannelStage w (str "stable") stable rustup.keep_latest_stables false).2.1
        = ((syncChannelStage w (str "stable") stable rustup.keep_latest_stables false).1,
           true, true) := syncChannelStage_failed _ _ _ _ _ hk hf he
    refine ⟨?_, ?_, ?_⟩
    · simp only [sync, hs2, syncChannelStage_failures_true]
      by_cases hN : (rustup.keep_latest_stables = none ∧ rustup.keep_latest_betas = none
          ∧ rustup.keep_latest_nightlies = none) <;>
        [skip; skip] <;> simp [hN] <;>
        exact (syncChannelStage_disk_frame _ _ _ _ _ _ (by decide)).trans
          (syncChannelStage_disk_frame _ _ _ _ _ _ (by decide))
    · simp only [sync, hs2, syncChannelStage_failures_true]
      by_cases hN : (rustup.keep_latest_stables = none ∧ rustup.keep_latest_betas = none
          ∧ rustup.keep_latest_nightlies = none) <;>
        [skip; skip] <;> simp [hN] <;>
        exact (syncChannelStage_published_count _ _ _ _ _ _ (by decide)).trans
          (syncChannelStage_published_count _ _ _ _ _ _ (by decide))
    · simp only [sync, hs2, syncChannelStage_failures_true]
      by_cases hN : (rustup.keep_latest_stables = none ∧ rustup.keep_latest_betas = none
          ∧ rustup.keep_latest_nightlies = none) <;> simp [hN]
  · intro hk hf he
    have hs3 : syncChannelStage
        (syncChannelStage
          (syncChannelStage w (str "stable") stable rustup.keep_latest_stables false).1
          (str "beta") beta rustup.keep_latest_betas
          (syncChannelStage w (str "stable") stable rustup.keep_latest_stables false).2.1).1
        (str "nightly") nightly rustup.keep_latest_nightlies
        (syncChannelStage
          (syncChannelStage w (str "stable") stable rustup.keep_latest_stables false).1
          (str "beta") beta rustup.keep_latest_betas
          (syncChannelStage w (str "stable") stable rustup.keep_latest_stables false).2.1).2.1
        = ((syncChannelStage
            (syncChannelStage w (str "stable") stable rustup.keep_latest_stables false).1
            (str "beta") beta rustup.keep_latest_betas
            (syncChannelStage w (str "stable") stable rustup.keep_latest_stables
              false).2.1).1,
           true, true) := syncChannelStage_failed _ _ _ _ _ hk hf he
    refine ⟨?_, ?_, ?_⟩
    · simp only [sync, hs3]
      by_cases hN : (rustup.keep_latest_stables = none ∧ rustup.keep_latest_betas = none
          ∧ rustup.keep_latest_nightlies = none) <;>
        [skip; skip] <;> simp [hN] <;>
        exact (syncChannelStage_disk_frame _ _ _ _ _ _ (by decide)).trans
          (syncChannelStage_disk_frame _ _ _ _ _ _ (by decide))
    · simp only [sync, hs3]
      by_cases hN : (rustup.keep_latest_stables = none ∧ rustup.keep_latest_betas = none
          ∧ rustup.keep_latest_nightlies = none) <;>
        [skip; skip] <;> simp [hN] <;>
        exact (syncChannelStage_published_count _ _ _ _ _ _ (by decide)).trans
          (syncChannelStage_published_count _ _ _ _ _ _ (by decide))
    · simp only [sync, hs3]
      by_cases hN : (rustup.keep_latest_stables = none ∧ rustup.keep_latest_betas = none
          ∧ rustup.keep_latest_nightlies = none) <;> simp [hN]

/-- The retention configuration used by the C2 witness. -/
def c2Section : RustupSection := ⟨some 2, some 2, some 2⟩

/-- A channel outcome whose download batch reports three failures. -/
def c2Fail : ChannelOutcome := ⟨true, str "2024-01-01", [(str "a", str "h")], 3⟩

/-- A mirror world with an empty dist directory and empty histories. -/
def c2World : World := ⟨fun _ => none, [⟨[str "dist"], true⟩], []⟩

/-- C2 (witness): the gating theorem evaluated with a failing batch on
each of the three channels in turn. -/
theorem failed_batch_gating_witness :
    sync_rustup_channel c2World (str "stable") c2Fail = .error (.FailedDownloads 3)
    ∧ ((sync c2Section c2World c2Fail okOutcome okOutcome).1.disk
          (channelHistoryPath (str "stable"))
        = c2World.disk (channelHistoryPath (str "stable"))
      ∧ ((sync c2Section c2World c2Fail okOutcome okOutcome).1.published).count
          (str "stable")
        = c2World.published.count (str "stable")
      ∧ (sync c2Section c2World c2Fail okOutcome okOutcome).2.ranClean = false)
    ∧ ((sync c2Section c2World okOutcome c2Fail okOutcome).1.disk
          (channelHistoryPath (str "beta"))
        = c2World.disk (channelHistoryPath (str "beta"))
      ∧ ((sync c2Section c2World okOutcome c2Fail okOutcome).1.published).count
          (str "beta")
        = c2World.published.count (str "beta")
      ∧ (sync c2Section c2World okOutcome c2Fail okOutcome).2.ranClean = false)
    ∧ ((sync c2Section c2World okOutcome okOutcome c2Fail).1.disk
          (channelHistoryPath (str "nightly"))
        = c2World.disk (channelHistoryPath (str "nightly"))
      ∧ ((sync c2Section c2World okOutcome okOutcome c2Fail).1.published).count
          (str "nightly")
        = c2World.published.count (str "nightly")
      ∧ (sync c2Section c2World okOutcome okOutcome c2Fail).2.ranClean = false) :=
  ⟨(failed_batch_gating c2Section c2World c2Fail okOutcome okOutcome).1
      (str "stable") c2Fail rfl (by decide),
   (failed_batch_gating c2Section c2World c2Fail okOutcome okOutcome).2.1
      (by decide) rfl (by decide),
   (failed_batch_gating c2Section c2World okOutcome c2Fail okOutcome).2.2.1
      (by decide) rfl (by decide),
   (failed_batch_gating c2Section c2World okOutcome okOutcome c2Fail).2.2.2
      (by decide) rfl (by decide)⟩

/-- The history file produced by the first C7 record. -/
def c7Hist1 : ChannelHistoryFile := ⟨[(str "2024-01-01", [str "a"])]⟩

/-- The disk after the first C7 record. -/
def c7Disk1 : Disk :=
  fun p => if p = channelHistoryPath (str "stable") then some (some c7Hist1) else none

/-- The history file produced by overwriting the same date. -/
def c7Hist2 : ChannelHistoryFile := ⟨[(str "2024-01-01", [str "b"])]⟩

/-- The disk after the second C7 record. -/
def c7Disk2 : Disk :=
  fun p => if p = channelHistoryPath (str "stable") then some (some c7Hist2) else c7Disk1 p

/-- C7 (witness): recording date 2024-01-01 twice on an empty disk leaves
one entry for that date holding the last-written path list. -/
theorem add_to_channel_history_spec_witness :
    lookupA (str "2024-01-01") c7Hist1.versions = some [str "a"]
    ∧ lookupA (str "2024-01-01") c7Hist2.versions = some [str "b"]
    ∧ (c7Hist2.versions.map Prod.fst).count (str "2024-01-01") = 1 :=
  add_to_channel_history_spec (fun _ => none) (str "stable") (str "2024-01-01")
    [(str "a", str "h1")] [(str "b", str "h2")] ⟨[]⟩ c7Hist1 c7Hist2 c7Disk1 c7Disk2
    rfl (by decide) rfl rfl rfl rfl

end Panamax
